import Mathlib

/-!
Verification development for the DAT repository (damage assessment tool).

The development shallowly embeds the core logic of the repository:

* `src/src/utils/photo-processing.ts` — Haversine distance, folder
  classification and proximity selection (`calculateDistance`,
  `processFolderStructure`);
* the damage-details tabular parser (`parseDamageDetailsFile` and its
  helpers `normalizeHeader`, `findHeader`, `getCellValue`,
  `suggestColumnMapping`);
* `src/worker/adapters/sqliteSqlStore.ts` and
  `src/worker/adapters/localObjectStore.ts` (`createCloudflareSqlStore`) —
  the assessment store upsert, which is character-for-character the same
  algorithm in both backends;
* the worker request handler (`createHandler`).

Modelling conventions: JavaScript strings are Lean `String`s;
floating-point arithmetic is modelled over `ℝ`; JavaScript `undefined` /
missing optional values are `Option.none`; JavaScript truthiness tests on
strings (`if (s)`, `a || b`) are modelled explicitly, with the empty
string falsy.  External collaborators (EXIF extraction, the XLSX reader,
`JSON.parse`/`stringify`, `parseFloat`, `localeCompare`,
`decodeURIComponent`, `crypto.randomUUID`) are modelled as data already
extracted or as function parameters, following the spec's treatment of
them as black boxes at the interface boundary.
-/

namespace DAT

/-! ## JavaScript string primitives

The JS string operations the source relies on are modelled directly on
the character lists of Lean strings (all the strings the claims touch
are ASCII, where `toLowerCase`, `trim`, `startsWith`, `includes`,
`split` and four-character `replace` agree with these models
character for character). -/

/-- JavaScript `s.includes(sub)`: `sub` occurs contiguously in `s`. -/
def jsIncludes (s sub : String) : Bool := decide (sub.toList <:+: s.toList)

/-- JavaScript `s.startsWith(pre)`. -/
def jsStartsWith (s pre : String) : Bool := pre.toList.isPrefixOf s.toList

/-- JavaScript `s.toLowerCase()`. -/
def jsToLower (s : String) : String := ⟨s.toList.map Char.toLower⟩

/-- Whitespace characters stripped by JavaScript `trim` (ASCII part). -/
def isJsSpace (c : Char) : Bool := c = ' ' || c = '\t' || c = '\n' || c = '\r'

/-- JavaScript `s.trim()`: strip whitespace from both ends. -/
def jsTrim (s : String) : String :=
  ⟨((s.toList.dropWhile isJsSpace).reverse.dropWhile isJsSpace).reverse⟩

/-- Drop the first `n` characters (models `replace` of a known
`n`-character prefix by the empty string, and `drop`). -/
def jsDrop (s : String) (n : Nat) : String := ⟨s.toList.drop n⟩

/-- JavaScript `path.split(sep)` for a single-character separator:
every separator occurrence splits, adjacent separators and string ends
produce empty segments. -/
def splitSlashAux (sep : Char) : List Char → List Char → List String
  | [], acc => [⟨acc.reverse⟩]
  | c :: cs, acc =>
    if c = sep then (⟨acc.reverse⟩ : String) :: splitSlashAux sep cs []
    else splitSlashAux sep cs (c :: acc)

/-- JavaScript `path.split('/')`. -/
def splitSlash (s : String) : List String := splitSlashAux '/' s.toList []

/-- JavaScript string truthiness for an optional string: `undefined` and
the empty string are falsy, every other string is truthy. -/
def jsTruthy : Option String → Bool
  | none => false
  | some s => s != ""

/-- First-match lookup in a string-keyed association list (JS object /
`Map` access and SQL primary-key `WHERE id = ?` both resolve a unique
key). -/
def alistGet {β : Type _} (l : List (String × β)) (k : String) : Option β :=
  match l with
  | [] => none
  | (k1, v) :: rest => if k1 = k then some v else alistGet rest k

/-! ## photo-processing.ts: data model

`PhotoLocation` is the GPS coordinate pair carried by a photo.
`UploadFile` models one entry of the uploaded `FileList`: its name, MIME
type, `webkitRelativePath`, and the location that the external EXIF
extractor (`extractPhotoMetadata`, an external collaborator per the spec)
would produce for it.  `PhotoMetadata` is the per-photo record the
pipeline works with (display fields such as the object URL, orientation
and timestamp are irrelevant to the claims and omitted). -/

structure PhotoLocation where
  latitude : ℝ
  longitude : ℝ

structure UploadFile where
  name : String
  mimeType : String
  relativePath : String
  location : Option PhotoLocation

structure PhotoMetadata where
  name : String
  location : Option PhotoLocation

/-- The (externally computed) metadata of an uploaded file; EXIF parsing
itself is a black-box collaborator, so the extracted location travels on
the `UploadFile`. -/
def extractPhotoMetadata (f : UploadFile) : PhotoMetadata :=
  ⟨f.name, f.location⟩

/-! ## photo-processing.ts: folder classification -/

inductive Stage where
  | damage
  | precondition
  | completion
deriving DecidableEq, Repr

/-- The keyword test of the stage-folder scan in `processFolderStructure`
(lines 107–125 of photo-processing.ts), applied to a lowercased, trimmed
path segment. -/
def isStageKeyword (folder : String) : Bool :=
  jsIncludes folder "precondition" ||
  jsIncludes folder "pre-condition" ||
  jsIncludes folder "pre_condition" ||
  jsIncludes folder "before" ||
  jsIncludes folder "damage" ||
  jsIncludes folder "completion" ||
  jsIncludes folder "after" ||
  jsStartsWith folder "01-" ||
  jsStartsWith folder "02-" ||
  jsStartsWith folder "03-"

/-- The front-to-back scan over all path segments except the final
filename segment (`for (let i = 0; i < pathParts.length - 1; i++)`),
returning the index of the first segment whose lowercased trimmed text
matches a keyword. -/
def stageFolderScan (parts : List String) : Option Nat :=
  List.findIdx? (fun p => isStageKeyword (jsTrim (jsToLower p))) parts.dropLast

/-- The resolved stage-folder index: the scan result, or the
second-to-last segment (`pathParts.length - 2`) when the scan found
nothing and the path has at least 2 segments. -/
def stageFolderIdx (parts : List String) : Option Nat :=
  match stageFolderScan parts with
  | some i => some i
  | none => if 2 ≤ parts.length then some (parts.length - 2) else none

/-- The lowercased trimmed text of the resolved stage folder. -/
def stageFolderText (parts : List String) : Option String :=
  (stageFolderIdx parts).map (fun i => jsTrim (jsToLower (parts.getD i "")))

/-- The report identifier: the segment before the stage folder when the
stage-folder index is positive, else `pathParts[1]` when the path has at
least 2 segments, else `pathParts[0]`. -/
def damageIdOfParts (parts : List String) : String :=
  match stageFolderIdx parts with
  | some i =>
    if 0 < i then parts.getD (i - 1) ""
    else if 2 ≤ parts.length then parts.getD 1 ""
    else parts.getD 0 ""
  | none =>
    if 2 ≤ parts.length then parts.getD 1 ""
    else parts.getD 0 ""

/-- The categorization cascade of `processFolderStructure`
(lines 162–189), applied to the lowercased trimmed stage-folder text. -/
def stageOfFolder (folder : String) : Stage :=
  if jsIncludes folder "damage" || jsStartsWith folder "02-" ||
     jsIncludes folder "02-damage" then .damage
  else if jsIncludes folder "precondition" ||
          jsIncludes folder "pre-condition" ||
          jsIncludes folder "pre_condition" ||
          jsIncludes folder "before" ||
          jsStartsWith folder "01-" ||
          jsIncludes folder "01-precondition" then .precondition
  else if jsIncludes folder "completion" ||
          jsIncludes folder "after" ||
          jsStartsWith folder "03-" ||
          jsIncludes folder "03-completion" then .completion
  else .damage

/-- The stage assigned to a path: `damage` when no stage folder text was
resolved or it is empty (the `if (!photoTypeFolder)` default branch),
otherwise the cascade. -/
def stageOfParts (parts : List String) : Stage :=
  match stageFolderText parts with
  | none => .damage
  | some f => if f = "" then .damage else stageOfFolder f

/-- The three per-report stage buckets built by the classification loop. -/
structure StageBuckets where
  damage : List PhotoMetadata
  precondition : List PhotoMetadata
  completion : List PhotoMetadata

def emptyBuckets : StageBuckets := ⟨[], [], []⟩

def bucketOf (b : StageBuckets) : Stage → List PhotoMetadata
  | .damage => b.damage
  | .precondition => b.precondition
  | .completion => b.completion

/-- Append a photo to one stage bucket (`set.damage.push(...)` etc.). -/
def pushStage (b : StageBuckets) (st : Stage) (p : PhotoMetadata) : StageBuckets :=
  match st with
  | .damage => { b with damage := b.damage ++ [p] }
  | .precondition => { b with precondition := b.precondition ++ [p] }
  | .completion => { b with completion := b.completion ++ [p] }

/-- Insert a photo into the photo-set map, modelled as an association
list in JS `Map` insertion order: an existing report id is updated in
place, a new id is appended at the end. -/
def addPhoto (sets : List (String × StageBuckets)) (id : String) (st : Stage)
    (p : PhotoMetadata) : List (String × StageBuckets) :=
  match sets with
  | [] => [(id, pushStage emptyBuckets st p)]
  | (k, b) :: rest =>
    if k = id then (k, pushStage b st p) :: rest
    else (k, b) :: addPhoto rest id st p

/-- One iteration of the classification loop of `processFolderStructure`:
skip non-image files, skip files whose path has fewer than 3
slash-delimited segments, otherwise classify and insert. -/
def classifyStep (sets : List (String × StageBuckets)) (f : UploadFile) :
    List (String × StageBuckets) :=
  if jsStartsWith f.mimeType "image/" then
    let parts := splitSlash f.relativePath
    if parts.length < 3 then sets
    else addPhoto sets (damageIdOfParts parts) (stageOfParts parts) (extractPhotoMetadata f)
  else sets

/-- The classification phase of `processFolderStructure` (lines 90–191):
the per-report stage buckets, keyed by inferred report id. -/
def classifyFiles (files : List UploadFile) : List (String × StageBuckets) :=
  files.foldl classifyStep []

/-! ## photo-processing.ts: Haversine distance -/

/-- JavaScript `Math.atan2(y, x)` on real numbers (two-argument
arctangent with the usual quadrant corrections). -/
noncomputable def atan2 (y x : ℝ) : ℝ :=
  if 0 < x then Real.arctan (y / x)
  else if x < 0 then
    if 0 ≤ y then Real.arctan (y / x) + Real.pi
    else Real.arctan (y / x) - Real.pi
  else if 0 < y then Real.pi / 2
  else if y < 0 then -(Real.pi / 2)
  else 0

/-- `calculateDistance` of photo-processing.ts (lines 7–22): Haversine
distance between two coordinates in degrees, mean Earth radius 6371 km,
result in meters. -/
noncomputable def calculateDistance (lat1 lon1 lat2 lon2 : ℝ) : ℝ :=
  let R : ℝ := 6371
  let dLat := (lat2 - lat1) * Real.pi / 180
  let dLon := (lon2 - lon1) * Real.pi / 180
  let a :=
    Real.sin (dLat / 2) * Real.sin (dLat / 2) +
      Real.cos (lat1 * Real.pi / 180) * Real.cos (lat2 * Real.pi / 180) *
        (Real.sin (dLon / 2) * Real.sin (dLon / 2))
  let c := 2 * atan2 (Real.sqrt a) (Real.sqrt (1 - a))
  R * c * 1000

/-! ## photo-processing.ts: proximity selection -/

/-- Distance of a photo's location to the reference location. Only ever
applied to photos that carry a location (the source dereferences
`photo.location!` after filtering on presence). -/
noncomputable def photoDistance (ref : PhotoLocation) (p : PhotoMetadata) : ℝ :=
  match p.location with
  | some l => calculateDistance ref.latitude ref.longitude l.latitude l.longitude
  | none => 0

/-- The ascending-by-distance comparator passed to `.sort`. -/
noncomputable def distLE (ref : PhotoLocation) (a b : PhotoMetadata) : Bool :=
  decide (photoDistance ref a ≤ photoDistance ref b)

/-- The proximity narrowing applied to one precondition or completion
bucket when a reference location exists: keep the located photos, sort
ascending by distance to the reference, take the first 10, then append
every location-less photo (lines 206–224 / 226–244). -/
noncomputable def selectClosest (ref : PhotoLocation) (photos : List PhotoMetadata) :
    List PhotoMetadata :=
  (((photos.filter fun p => p.location.isSome).mergeSort (distLE ref)).take 10) ++
    photos.filter fun p => !p.location.isSome

/-- The reference location of a report: the location of the first damage
photo that has one (`photos.damage.find(photo => photo.location)`). -/
def findReference (photos : List PhotoMetadata) : Option PhotoLocation :=
  (photos.find? fun p => p.location.isSome).bind fun p => p.location

/-- One output photo set (the orientation/url/details fields play no role
in the verified claims). -/
structure PhotoSet where
  damageId : String
  damagePhotos : List PhotoMetadata
  preconditionPhotos : List PhotoMetadata
  completionPhotos : List PhotoMetadata
  referenceLocation : Option PhotoLocation

/-- The per-report proximity-selection step of `processFolderStructure`
(lines 196–253): damage photos pass through unchanged; precondition and
completion photos are narrowed only when a reference location exists. -/
noncomputable def processSet (id : String) (b : StageBuckets) : PhotoSet :=
  match findReference b.damage with
  | some ref =>
    ⟨id, b.damage, selectClosest ref b.precondition, selectClosest ref b.completion, some ref⟩
  | none => ⟨id, b.damage, b.precondition, b.completion, none⟩

/-- `processFolderStructure` end to end: classify, run the per-report
selection, and sort the resulting sets by report id.  The final
`.sort((a, b) => a.damageId.localeCompare(b.damageId))` uses the
environment's locale-aware comparator, modelled here as the parameter
`le`. -/
noncomputable def processFolderStructure (le : String → String → Bool)
    (files : List UploadFile) : List PhotoSet :=
  ((classifyFiles files).map fun kb => processSet kb.1 kb.2).mergeSort
    fun a b => le a.damageId b.damageId

/-- A file enters classification iff its MIME type starts with `image/`
and its relative path has at least 3 slash-delimited segments (the
source skips `pathParts.length < 3`). -/
def isProcessedFile (f : UploadFile) : Bool :=
  jsStartsWith f.mimeType "image/" && decide (3 ≤ (splitSlash f.relativePath).length)

/-- Total number of photos held across all stage buckets of all sets. -/
def totalPhotos (sets : List (String × StageBuckets)) : Nat :=
  (sets.map fun kb =>
    kb.2.damage.length + kb.2.precondition.length + kb.2.completion.length).sum

/-- The photo `p` sits in stage bucket `st` of the set keyed `id`. -/
def MemBucket (sets : List (String × StageBuckets)) (id : String) (st : Stage)
    (p : PhotoMetadata) : Prop :=
  ∃ b, alistGet sets id = some b ∧ p ∈ bucketOf b st

/-! ## The damage-details tabular parser (`parseDamageDetailsFile`)

The XLSX reader is an external collaborator: `parseDamageDetailsFile`
hands the workbook to `XLSX.utils.sheet_to_json(sheet, defval: empty)`
and from then on works on plain rows.  A row is modelled as an
association list from column-header string to cell text (the JS rows are
string-keyed objects; `String(value)` conversion of numeric cells is part
of the external reader boundary).  The embedding below starts where the
rows are in hand: `parseDamageDetailsRows rows mapping` is the body of
`parseDamageDetailsFile` from the `rows.length === 0` check onward, with
`headers = Object.keys(rows[0])` modelled as the key list of the first
row.  JavaScript `parseFloat` is a platform primitive and is passed in as
the parameter `pf` (returning `none` for non-finite results, matching the
`Number.isFinite` guard). -/

abbrev Row := List (String × String)

/-- `normalizeHeader`: lowercase, then delete whitespace, underscore and
hyphen characters. -/
def normalizeHeader (s : String) : String :=
  String.mk ((jsToLower s).toList.filter fun c =>
    !(c = ' ' || c = '\t' || c = '\n' || c = '\r' || c = '_' || c = '-'))

/-- `findHeader`: the source builds a JS `Map` from normalized header to
original header (later headers overwrite earlier ones with the same
normalized form), then returns the map entry of the first candidate whose
entry is truthy.  An entry that is the empty string is falsy and is
skipped just like a missing entry. -/
def findHeader (headers candidates : List String) : Option String :=
  candidates.findSome? fun c =>
    match headers.reverse.find? (fun h => normalizeHeader h = normalizeHeader c) with
    | some h => if h = "" then none else some h
    | none => none

/-- `getCellValue`: `undefined` for a falsy key, a missing cell, or a
cell whose trimmed text is empty; the trimmed text otherwise. -/
def getCellValue (row : Row) (key : Option String) : Option String :=
  match key with
  | none => none
  | some k =>
    if k = "" then none
    else
      match alistGet row k with
      | none => none
      | some v => if jsTrim v = "" then none else some (jsTrim v)

/-- The character filter of `toNumber`: keep digits, the decimal point
and the minus sign. -/
def cleanNumeric (s : String) : String :=
  String.mk (s.toList.filter fun c => c.isDigit || c = '.' || c = '-')

/-- `toNumber`: `undefined` stays absent; otherwise strip non-numeric
characters and parse with the platform `parseFloat` (`pf`), which yields
`none` for non-finite results. -/
def toNumber (pf : String → Option ℚ) (v : Option String) : Option ℚ :=
  match v with
  | none => none
  | some s => pf (cleanNumeric s)

/-- `[length, width, height].filter(Boolean).join(' x ')`. -/
def joinX (vals : List (Option String)) : String :=
  String.intercalate " x " (vals.filterMap id)

/-- `buildDimensions`: re-infer length/width/height columns from the
headers and join the non-empty cells. -/
def buildDimensions (row : Row) (headers : List String) : Option String :=
  let lengthKey := findHeader headers ["length", "len"]
  let widthKey := findHeader headers ["width", "wid"]
  let heightKey := findHeader headers ["height", "depth"]
  let l := getCellValue row lengthKey
  let w := getCellValue row widthKey
  let h := getCellValue row heightKey
  if l = none ∧ w = none ∧ h = none then none
  else some (joinX [l, w, h])

/-- An explicit `DamageDetailsColumnMapping` argument.  JavaScript object
spread distinguishes an absent key (outer `none`: the inferred default
survives) from a key explicitly present with value `undefined` (inner
`none`: the default is overridden away), so each field is doubly
optional. -/
structure ColumnMapping where
  damageId : Option (Option String) := none
  damageType : Option (Option String) := none
  treatment : Option (Option String) := none
  dimensions : Option (Option String) := none
  costAUD : Option (Option String) := none
  length : Option (Option String) := none
  width : Option (Option String) := none
  height : Option (Option String) := none

/-- The fully merged mapping actually used for row parsing. -/
structure ResolvedMapping where
  damageId : Option String
  damageType : Option String
  treatment : Option String
  dimensions : Option String
  costAUD : Option String
  length : Option String
  width : Option String
  height : Option String

/-- `suggestColumnMapping`: per-field ordered candidate inference. -/
def suggestColumnMapping (headers : List String) : ResolvedMapping :=
  ⟨findHeader headers ["damageid", "damage_id", "reportid", "report_id", "folderpath", "folder"],
   findHeader headers ["damagetype", "damage_type"],
   findHeader headers ["treatment", "repair", "action"],
   findHeader headers ["dimensions", "dimension", "size"],
   findHeader headers ["costaud", "cost", "estimate", "price", "amount"],
   findHeader headers ["length", "len"],
   findHeader headers ["width", "wid"],
   findHeader headers ["height", "depth"]⟩

/-- The object spread `mergedMapping = { ...defaults, ...mapping }`. -/
def mergeMapping (defaults : ResolvedMapping) (m : Option ColumnMapping) : ResolvedMapping :=
  match m with
  | none => defaults
  | some m =>
    ⟨m.damageId.getD defaults.damageId,
     m.damageType.getD defaults.damageType,
     m.treatment.getD defaults.treatment,
     m.dimensions.getD defaults.dimensions,
     m.costAUD.getD defaults.costAUD,
     m.length.getD defaults.length,
     m.width.getD defaults.width,
     m.height.getD defaults.height⟩

structure DamageDetails where
  damageType : Option String
  treatment : Option String
  dimensions : Option String
  costAUD : Option ℚ
deriving DecidableEq, Repr

/-- The dimensions cell of a row: the mapped dimensions column when it
holds a non-empty value; else, when any of the three component columns is
mapped (truthily), the join of their non-empty cells; else the
header-inferred join of `buildDimensions`. -/
def parseRowDimensions (m : ResolvedMapping) (headers : List String) (row : Row) :
    Option String :=
  match getCellValue row m.dimensions with
  | some d => some d
  | none =>
    if jsTruthy m.length || jsTruthy m.width || jsTruthy m.height then
      let l := getCellValue row m.length
      let w := getCellValue row m.width
      let h := getCellValue row m.height
      if l = none ∧ w = none ∧ h = none then none
      else some (joinX [l, w, h])
    else buildDimensions row headers

/-- The `DamageDetails` record built for one row. -/
def parseRow (pf : String → Option ℚ) (m : ResolvedMapping) (headers : List String)
    (row : Row) : DamageDetails :=
  ⟨getCellValue row m.damageType,
   getCellValue row m.treatment,
   parseRowDimensions m headers row,
   toNumber pf (getCellValue row m.costAUD)⟩

/-- `detailsById[damageId] = record`: JS object assignment keeps the
first-insertion position of an existing key and overwrites its value. -/
def insertDetail (acc : List (String × DamageDetails)) (id : String) (d : DamageDetails) :
    List (String × DamageDetails) :=
  match acc with
  | [] => [(id, d)]
  | (k, v) :: rest =>
    if k = id then (k, d) :: rest
    else (k, v) :: insertDetail rest id d

/-- One iteration of the `rows.forEach` loop: a row without a non-empty
report-id cell is skipped; every other row writes its parsed record
under its id. -/
def processRowsStep (pf : String → Option ℚ) (m : ResolvedMapping) (headers : List String)
    (acc : List (String × DamageDetails)) (row : Row) : List (String × DamageDetails) :=
  match getCellValue row m.damageId with
  | none => acc
  | some id => insertDetail acc id (parseRow pf m headers row)

/-- The `rows.forEach` loop over the whole sheet. -/
def processRows (pf : String → Option ℚ) (m : ResolvedMapping) (headers : List String)
    (rows : List Row) : List (String × DamageDetails) :=
  rows.foldl (processRowsStep pf m headers) []

structure DamageDetailsParseResult where
  detailsById : List (String × DamageDetails)
  error : Option String
deriving DecidableEq, Repr

/-- The body of `parseDamageDetailsFile` from the zero-rows check onward
(part_007 lines 190–241): empty sheet and missing report-id column are
whole-file errors with an empty details map; otherwise the rows are
folded into the details map. -/
def parseDamageDetailsRows (pf : String → Option ℚ) (rows : List Row)
    (mapping : Option ColumnMapping) : DamageDetailsParseResult :=
  match rows with
  | [] => ⟨[], some "Details file contains no rows."⟩
  | first :: _ =>
    let headers := first.map Prod.fst
    let merged := mergeMapping (suggestColumnMapping headers) mapping
    if jsTruthy merged.damageId then ⟨processRows pf merged headers rows, none⟩
    else ⟨[], some "Missing required column: damageId."⟩

/-- The damageId override carried by an explicit mapping argument: the
header name only when the mapping object is present and carries a
non-`undefined` damageId entry. -/
def mappingDamageIdOverride (m : Option ColumnMapping) : Option String :=
  match m with
  | none => none
  | some mm => mm.damageId.getD none

/-! ## The assessment store (`upsertAssessment` in both SQL backends)

`sqliteSqlStore.ts` (lines 44–73) and `createCloudflareSqlStore` in
`localObjectStore.ts` (lines 61–92) implement the identical algorithm:
resolve the id (`record.id || record.damageId`), read the current time,
`SELECT id, created_at FROM assessments WHERE id = ?`, compute
`createdAt = existing?.created_at || now`, then run one
`INSERT ... ON CONFLICT(id) DO UPDATE SET damage_id, approval_json,
metrics_json, updated_at` statement, and return a record assembled from
the inputs.  The table is an association list keyed on the primary key
`id`; approval and metrics travel in their JSON-serialized form
(`JSON.stringify` of a present object is some non-null text, an absent
object is stored as SQL NULL).  Timestamps are the ISO-8601 strings the
code produces (`new Date().toISOString()`). -/

structure StoredRow where
  damageId : String
  approvalJson : Option String
  metricsJson : Option String
  createdAt : String
  updatedAt : String
deriving DecidableEq, Repr

abbrev AssessmentTable := List (String × StoredRow)

structure AssessmentUpsert where
  id : Option String
  damageId : String
  approval : Option String
  metrics : Option String
deriving DecidableEq, Repr

structure AssessmentRecord where
  id : String
  damageId : String
  approval : Option String
  metrics : Option String
  createdAt : String
  updatedAt : String
deriving DecidableEq, Repr

/-- `const id = record.id || record.damageId;` — JavaScript `||` falls
back on the empty string as well as on `undefined`. -/
def resolveUpsertId (r : AssessmentUpsert) : String :=
  match r.id with
  | some s => if s = "" then r.damageId else s
  | none => r.damageId

/-- The single conditional `INSERT ... ON CONFLICT(id) DO UPDATE`
statement: on a fresh id all six columns are inserted; on conflict only
`damage_id`, `approval_json`, `metrics_json` and `updated_at` are set,
so the stored `created_at` (and the key) survive. -/
def sqlInsertOnConflict (t : AssessmentTable) (id damageId : String)
    (aj mj : Option String) (createdAt updatedAt : String) : AssessmentTable :=
  match t with
  | [] => [(id, ⟨damageId, aj, mj, createdAt, updatedAt⟩)]
  | (k, row) :: rest =>
    if k = id then (k, ⟨damageId, aj, mj, row.createdAt, updatedAt⟩) :: rest
    else (k, row) :: sqlInsertOnConflict rest id damageId aj mj createdAt updatedAt

/-- `SELECT id, created_at FROM assessments WHERE id = ?`, projected to
the `created_at` column. -/
def selectCreatedAt (t : AssessmentTable) (id : String) : Option String :=
  (alistGet t id).map (·.createdAt)

/-- The read phase of `upsertAssessment`: the SELECT of the existing
row's `created_at`. -/
def upsertReadPhase (t : AssessmentTable) (r : AssessmentUpsert) : Option String :=
  selectCreatedAt t (resolveUpsertId r)

/-- The write phase of `upsertAssessment`: compute
`createdAt = existing?.created_at || now` from the read result, run the
conditional insert-or-update statement, and assemble the returned
record from the inputs. -/
def upsertWritePhase (t : AssessmentTable) (r : AssessmentUpsert)
    (readCreatedAt : Option String) (now : String) :
    AssessmentTable × AssessmentRecord :=
  let id := resolveUpsertId r
  let createdAt :=
    match readCreatedAt with
    | some s => if s = "" then now else s
    | none => now
  (sqlInsertOnConflict t id r.damageId r.approval r.metrics createdAt now,
   ⟨id, r.damageId, r.approval, r.metrics, createdAt, now⟩)

/-- `upsertAssessment`, common to both SQL backends: the read phase
followed by the write phase against the same table state. -/
def upsertAssessment (t : AssessmentTable) (r : AssessmentUpsert) (now : String) :
    AssessmentTable × AssessmentRecord :=
  upsertWritePhase t r (upsertReadPhase t r) now

/-! ### Interleaving model for two concurrent upserts

Each SQL statement is atomic at the storage layer, so an execution of two
concurrent `upsertAssessment` calls is an interleaving of four atomic
events: each caller's SELECT (read phase) and each caller's
INSERT-ON-CONFLICT (write phase), with each caller's read before its own
write.  `validSchedules` lists all six such interleavings. -/

inductive UpsertEv where
  | read1
  | write1
  | read2
  | write2
deriving DecidableEq, Repr

structure ConcState where
  table : AssessmentTable
  read1Result : Option (Option String)
  read2Result : Option (Option String)
  ret1 : Option AssessmentRecord
  ret2 : Option AssessmentRecord
deriving DecidableEq, Repr

def concStep (r1 r2 : AssessmentUpsert) (t1 t2 : String) (s : ConcState) :
    UpsertEv → ConcState
  | .read1 => { s with read1Result := some (upsertReadPhase s.table r1) }
  | .write1 =>
    let out := upsertWritePhase s.table r1 (s.read1Result.getD none) t1
    { s with table := out.1, ret1 := some out.2 }
  | .read2 => { s with read2Result := some (upsertReadPhase s.table r2) }
  | .write2 =>
    let out := upsertWritePhase s.table r2 (s.read2Result.getD none) t2
    { s with table := out.1, ret2 := some out.2 }

def runSchedule (r1 r2 : AssessmentUpsert) (t1 t2 : String)
    (init : AssessmentTable) (sched : List UpsertEv) : ConcState :=
  sched.foldl (concStep r1 r2 t1 t2) ⟨init, none, none, none, none⟩

def validSchedules : List (List UpsertEv) :=
  [[.read1, .write1, .read2, .write2],
   [.read2, .write2, .read1, .write1],
   [.read1, .read2, .write1, .write2],
   [.read1, .read2, .write2, .write1],
   [.read2, .read1, .write1, .write2],
   [.read2, .read1, .write2, .write1]]

/-- The upsert call whose write phase commits last in a schedule,
together with its timestamp. -/
def lastWriter (r1 r2 : AssessmentUpsert) (t1 t2 : String)
    (sched : List UpsertEv) : AssessmentUpsert × String :=
  match sched.reverse.find? (fun e => e == .write1 || e == .write2) with
  | some .write2 => (r2, t2)
  | _ => (r1, t1)

/-- The timestamp of the upsert call whose write phase commits first. -/
def firstWriteTime (t1 t2 : String) (sched : List UpsertEv) : String :=
  match sched.find? (fun e => e == .write1 || e == .write2) with
  | some .write1 => t1
  | _ => t2

/-! ## The request handler (`createHandler` in the worker, part_003)

The handler is stateless over the two stores.  The external pieces —
`decodeURIComponent` and `crypto.randomUUID()` — enter as the parameters
`decode` and `uuid`; `sqlStore.init()` is the idempotent
create-table-if-absent and leaves the modelled table unchanged.  A JSON
body is `none` when the request body is the JSON literal `null` and
`some b` when it is an object; absent object fields are `none` inside
`b`.  `toRecord` mirrors the adapters' row-to-record conversion, where
`row.approval_json ? JSON.parse(...) : undefined` leaves both SQL NULL
and the empty string (both falsy) absent. -/

structure IncomingBody where
  id : Option String
  damageId : Option String
  approval : Option String
  metrics : Option String
deriving DecidableEq, Repr

/-- The body as handed to `upsertAssessment` after the `damageId`
guard. -/
def bodyToUpsert (b : IncomingBody) : AssessmentUpsert :=
  ⟨b.id, b.damageId.getD "", b.approval, b.metrics⟩

def toRecord (id : String) (row : StoredRow) : AssessmentRecord :=
  ⟨id, row.damageId,
   row.approvalJson.bind (fun s => if s = "" then none else some s),
   row.metricsJson.bind (fun s => if s = "" then none else some s),
   row.createdAt, row.updatedAt⟩

/-- `SELECT * FROM assessments WHERE id = ?` plus `toRecord`. -/
def getAssessment (t : AssessmentTable) (id : String) : Option AssessmentRecord :=
  (alistGet t id).map (toRecord id)

/-- `SELECT * FROM assessments ORDER BY updated_at DESC` plus
`toRecord`. -/
def listAssessments (t : AssessmentTable) : List AssessmentRecord :=
  (t.map fun kv => toRecord kv.1 kv.2).mergeSort fun a b =>
    decide (b.updatedAt ≤ a.updatedAt)

structure ApiRequest where
  method : String
  pathname : String
  jsonBody : Option IncomingBody
  formFile : Option String
deriving DecidableEq, Repr

inductive ApiResponse where
  | jsonError (status : Nat) (message : String)
  | jsonRecord (status : Nat) (record : AssessmentRecord)
  | jsonRecords (status : Nat) (records : List AssessmentRecord)
  | jsonOk (status : Nat)
  | uploadResp (status : Nat) (key : String)
  | textResp (status : Nat) (body : String)
deriving DecidableEq, Repr

/-- The `^/assessments/([^/]+)$` route match. -/
def matchAssessmentId (route : String) : Option String :=
  if jsStartsWith route "/assessments/" then
    let rest := jsDrop route 13
    if rest.length > 0 && !rest.toList.contains '/' then some rest else none
  else none

/-- `handleRequest` of `createHandler`: CORS preflight, the `/api`
prefix gate (under which `pathname.replace(m, empty)` of the literal
`/api` removes the leading four characters), then the route cascade.
The mutated assessment table is returned next to the response. -/
def handleRequest (decode : String → String) (uuid : String) (now : String)
    (st : AssessmentTable) (req : ApiRequest) : ApiResponse × AssessmentTable :=
  if req.method = "OPTIONS" then (.textResp 204 "", st)
  else if !jsStartsWith req.pathname "/api" then (.textResp 404 "Not Found", st)
  else
    let route := jsDrop req.pathname 4
    if req.method = "GET" ∧ route = "/health" then (.jsonOk 200, st)
    else if req.method = "POST" ∧ route = "/upload" then
      match req.formFile with
      | none => (.jsonError 400 "Missing file", st)
      | some name => (.uploadResp 201 (uuid ++ "_" ++ name), st)
    else if req.method = "GET" ∧ route = "/assessments" then
      (.jsonRecords 200 (listAssessments st), st)
    else if req.method = "POST" ∧ route = "/assessments" then
      match req.jsonBody with
      | none => (.jsonError 400 "damageId is required", st)
      | some b =>
        if jsTruthy b.damageId then
          let out := upsertAssessment st (bodyToUpsert b) now
          (.jsonRecord 201 out.2, out.1)
        else (.jsonError 400 "damageId is required", st)
    else
      match matchAssessmentId route with
      | some encId =>
        let id := decode encId
        if req.method = "GET" then
          match getAssessment st id with
          | none => (.jsonError 404 "Not found", st)
          | some rec => (.jsonRecord 200 rec, st)
        else if req.method = "PUT" then
          match req.jsonBody with
          | none => (.jsonError 400 "damageId is required", st)
          | some b =>
            if jsTruthy b.damageId then
              let out := upsertAssessment st { bodyToUpsert b with id := some id } now
              (.jsonRecord 200 out.2, out.1)
            else (.jsonError 400 "damageId is required", st)
        else (.textResp 404 "Not Found", st)
      | none => (.textResp 404 "Not Found", st)

/-! # Theorems -/

/-! ## Haversine helper lemmas -/

theorem jsIncludes_mono {f a b : String} (hab : a.toList <:+: b.toList)
    (h : jsIncludes f b = true) : jsIncludes f a = true := by
  simp only [jsIncludes, decide_eq_true_eq] at h ⊢
  exact hab.trans h

/-- C9. `calculateDistance` is zero on identical points, symmetric, and
on the equatorial fixture of two points 0.001° apart in latitude it
returns exactly the spherical great-circle distance
`6371000 · (0.001 · π / 180)` meters (mean radius 6371 km), hence
trivially within the 1% tolerance, and numerically between 111 and 112
meters. -/
theorem C9_haversine :
    (∀ lat lon : ℝ, calculateDistance lat lon lat lon = 0) ∧
    (∀ lat1 lon1 lat2 lon2 : ℝ,
      calculateDistance lat1 lon1 lat2 lon2 = calculateDistance lat2 lon2 lat1 lon1) ∧
    calculateDistance 0 0 (1 / 1000) 0 = 6371000 * ((1 / 1000) * Real.pi / 180) ∧
    |calculateDistance 0 0 (1 / 1000) 0 - 6371000 * ((1 / 1000) * Real.pi / 180)| ≤
      6371000 * ((1 / 1000) * Real.pi / 180) / 100 ∧
    111 < calculateDistance 0 0 (1 / 1000) 0 ∧
    calculateDistance 0 0 (1 / 1000) 0 < 112 := by
  have hfix : calculateDistance 0 0 (1 / 1000) 0 = 6371000 * ((1 / 1000) * Real.pi / 180) := by
    have hpi := Real.pi_pos
    set θ : ℝ := Real.pi / 360000 with hθdef
    have hθpos : 0 < θ := by positivity
    have hθsmall : θ < Real.pi / 2 := by
      rw [hθdef]; nlinarith
    have hθlepi : θ ≤ Real.pi := by rw [hθdef]; nlinarith
    have hsin0 : (0 : ℝ) ≤ Real.sin θ :=
      Real.sin_nonneg_of_nonneg_of_le_pi hθpos.le hθlepi
    have hcos0 : (0 : ℝ) < Real.cos θ :=
      Real.cos_pos_of_mem_Ioo ⟨by linarith, hθsmall⟩
    have harg1 : ((1 / 1000 : ℝ) - 0) * Real.pi / 180 / 2 = θ := by
      rw [hθdef]; ring
    have harg2 : ((0 : ℝ) - 0) * Real.pi / 180 / 2 = 0 := by ring
    have ha : Real.sqrt (Real.sin θ * Real.sin θ) = Real.sin θ :=
      Real.sqrt_mul_self hsin0
    have hb : (1 : ℝ) - Real.sin θ * Real.sin θ = Real.cos θ * Real.cos θ := by
      nlinarith [Real.sin_sq_add_cos_sq θ]
    have hc : Real.sqrt (Real.cos θ * Real.cos θ) = Real.cos θ :=
      Real.sqrt_mul_self hcos0.le
    have harctan : Real.arctan (Real.sin θ / Real.cos θ) = θ := by
      rw [← Real.tan_eq_sin_div_cos]
      exact Real.arctan_tan (by linarith) hθsmall
    simp only [calculateDistance]
    rw [harg1, harg2, Real.sin_zero]
    rw [show Real.sin θ * Real.sin θ + Real.cos (0 * Real.pi / 180) *
        Real.cos (1 / 1000 * Real.pi / 180) * ((0 : ℝ) * 0) =
        Real.sin θ * Real.sin θ by ring]
    rw [ha, hb, hc, atan2, if_pos hcos0, harctan, hθdef]
    ring
  refine ⟨?_, ?_, hfix, ?_, ?_, ?_⟩
  · intro lat lon
    simp [calculateDistance, atan2, sub_self, Real.sin_zero, Real.sqrt_zero,
      Real.sqrt_one, Real.arctan_zero]
  · intro lat1 lon1 lat2 lon2
    have hsin : ∀ x y : ℝ,
        Real.sin ((x - y) * Real.pi / 180 / 2) * Real.sin ((x - y) * Real.pi / 180 / 2) =
        Real.sin ((y - x) * Real.pi / 180 / 2) * Real.sin ((y - x) * Real.pi / 180 / 2) := by
      intro x y
      have h : (x - y) * Real.pi / 180 / 2 = -((y - x) * Real.pi / 180 / 2) := by ring
      rw [h, Real.sin_neg]; ring
    simp only [calculateDistance]
    rw [hsin lat2 lat1, hsin lon2 lon1,
      mul_comm (Real.cos (lat1 * Real.pi / 180)) (Real.cos (lat2 * Real.pi / 180))]
  · rw [hfix, sub_self, abs_zero]
    positivity
  · rw [hfix]
    have h := Real.pi_gt_d6
    nlinarith
  · rw [hfix]
    have h := Real.pi_lt_d2
    nlinarith

/-! ## Classification helper lemmas -/

theorem stageOfParts_of_scan {parts : List String} {i : Nat}
    (hscan : stageFolderScan parts = some i) :
    stageOfParts parts =
      (if jsTrim (jsToLower (parts.getD i "")) = "" then Stage.damage
       else stageOfFolder (jsTrim (jsToLower (parts.getD i "")))) := by
  simp only [stageOfParts, stageFolderText, stageFolderIdx, hscan]
  rfl

theorem damageIdOfParts_of_scan {parts : List String} {i : Nat}
    (hscan : stageFolderScan parts = some i) (hpos : 0 < i) :
    damageIdOfParts parts = parts.getD (i - 1) "" := by
  simp only [damageIdOfParts, stageFolderIdx, hscan]
  rw [if_pos hpos]

/-- C4. When the first keyword-matching segment sits at a positive index
`i`, the report id is the segment at `i − 1`, and the stage follows the
first-match priority cascade on the matched folder text (damage
keywords, then precondition keywords, then completion keywords, then the
damage default); concretely, `A/B/02-Damage/x.jpg` yields report id `B`
and stage damage. -/
theorem C4_report_id_and_stage (parts : List String) (i : Nat)
    (hscan : stageFolderScan parts = some i) (hpos : 0 < i) :
    damageIdOfParts parts = parts.getD (i - 1) "" ∧
    ((jsIncludes (jsTrim (jsToLower (parts.getD i ""))) "damage" ||
        jsStartsWith (jsTrim (jsToLower (parts.getD i ""))) "02-") = true →
      stageOfParts parts = Stage.damage) ∧
    ((jsIncludes (jsTrim (jsToLower (parts.getD i ""))) "damage" ||
        jsStartsWith (jsTrim (jsToLower (parts.getD i ""))) "02-") = false →
     (jsIncludes (jsTrim (jsToLower (parts.getD i ""))) "precondition" ||
        jsIncludes (jsTrim (jsToLower (parts.getD i ""))) "pre-condition" ||
        jsIncludes (jsTrim (jsToLower (parts.getD i ""))) "pre_condition" ||
        jsIncludes (jsTrim (jsToLower (parts.getD i ""))) "before" ||
        jsStartsWith (jsTrim (jsToLower (parts.getD i ""))) "01-") = true →
      stageOfParts parts = Stage.precondition) ∧
    ((jsIncludes (jsTrim (jsToLower (parts.getD i ""))) "damage" ||
        jsStartsWith (jsTrim (jsToLower (parts.getD i ""))) "02-") = false →
     (jsIncludes (jsTrim (jsToLower (parts.getD i ""))) "precondition" ||
        jsIncludes (jsTrim (jsToLower (parts.getD i ""))) "pre-condition" ||
        jsIncludes (jsTrim (jsToLower (parts.getD i ""))) "pre_condition" ||
        jsIncludes (jsTrim (jsToLower (parts.getD i ""))) "before" ||
        jsStartsWith (jsTrim (jsToLower (parts.getD i ""))) "01-") = false →
     (jsIncludes (jsTrim (jsToLower (parts.getD i ""))) "completion" ||
        jsIncludes (jsTrim (jsToLower (parts.getD i ""))) "after" ||
        jsStartsWith (jsTrim (jsToLower (parts.getD i ""))) "03-") = true →
      stageOfParts parts = Stage.completion) ∧
    ((jsIncludes (jsTrim (jsToLower (parts.getD i ""))) "damage" ||
        jsStartsWith (jsTrim (jsToLower (parts.getD i ""))) "02-") = false →
     (jsIncludes (jsTrim (jsToLower (parts.getD i ""))) "precondition" ||
        jsIncludes (jsTrim (jsToLower (parts.getD i ""))) "pre-condition" ||
        jsIncludes (jsTrim (jsToLower (parts.getD i ""))) "pre_condition" ||
        jsIncludes (jsTrim (jsToLower (parts.getD i ""))) "before" ||
        jsStartsWith (jsTrim (jsToLower (parts.getD i ""))) "01-") = false →
     (jsIncludes (jsTrim (jsToLower (parts.getD i ""))) "completion" ||
        jsIncludes (jsTrim (jsToLower (parts.getD i ""))) "after" ||
        jsStartsWith (jsTrim (jsToLower (parts.getD i ""))) "03-") = false →
      stageOfParts parts = Stage.damage) ∧
    damageIdOfParts (splitSlash "A/B/02-Damage/x.jpg") = "B" ∧
    stageOfParts (splitSlash "A/B/02-Damage/x.jpg") = Stage.damage := by
  set folder := jsTrim (jsToLower (parts.getD i "")) with hfolder
  have hstage := stageOfParts_of_scan hscan
  rw [← hfolder] at hstage
  refine ⟨damageIdOfParts_of_scan hscan hpos, ?_, ?_, ?_, ?_, by decide, by decide⟩
  · intro hD
    have hne : ¬(folder = "") := by
      intro he
      rw [he] at hD
      revert hD; decide
    rw [hstage, if_neg hne]
    rcases Bool.or_eq_true_iff.mp hD with h | h <;> simp [stageOfFolder, h]
  · intro hD hP
    have hne : ¬(folder = "") := by
      intro he
      rw [he] at hP
      revert hP; decide
    have h02d : jsIncludes folder "02-damage" = false := by
      cases h : jsIncludes folder "02-damage" with
      | false => rfl
      | true =>
        have := jsIncludes_mono (f := folder) (a := "damage") (b := "02-damage")
          ⟨"02-".toList, [], rfl⟩ h
        simp [this] at hD
    obtain ⟨hd1, hd2⟩ := Bool.or_eq_false_iff.mp hD
    rw [hstage, if_neg hne]
    simp only [Bool.or_eq_true] at hP
    rcases hP with (((h | h) | h) | h) | h <;>
      simp [stageOfFolder, hd1, hd2, h02d, h]
  · intro hD hP hC
    have hne : ¬(folder = "") := by
      intro he
      rw [he] at hC
      revert hC; decide
    have h02d : jsIncludes folder "02-damage" = false := by
      cases h : jsIncludes folder "02-damage" with
      | false => rfl
      | true =>
        have := jsIncludes_mono (f := folder) (a := "damage") (b := "02-damage")
          ⟨"02-".toList, [], rfl⟩ h
        simp [this] at hD
    have h01p : jsIncludes folder "01-precondition" = false := by
      cases h : jsIncludes folder "01-precondition" with
      | false => rfl
      | true =>
        have := jsIncludes_mono (f := folder) (a := "precondition")
          (b := "01-precondition") ⟨"01-".toList, [], rfl⟩ h
        simp [this] at hP
    obtain ⟨hd1, hd2⟩ := Bool.or_eq_false_iff.mp hD
    simp only [Bool.or_eq_false_iff] at hP
    obtain ⟨⟨⟨⟨hp1, hp2⟩, hp3⟩, hp4⟩, hp5⟩ := hP
    rw [hstage, if_neg hne]
    simp only [Bool.or_eq_true] at hC
    rcases hC with (h | h) | h <;>
      simp [stageOfFolder, hd1, hd2, h02d, hp1, hp2, hp3, hp4, hp5, h01p, h]
  · intro hD hP hC
    by_cases hne : folder = ""
    · rw [hstage, if_pos hne]
    · have h02d : jsIncludes folder "02-damage" = false := by
        cases h : jsIncludes folder "02-damage" with
        | false => rfl
        | true =>
          have := jsIncludes_mono (f := folder) (a := "damage") (b := "02-damage")
            ⟨"02-".toList, [], rfl⟩ h
          simp [this] at hD
      have h01p : jsIncludes folder "01-precondition" = false := by
        cases h : jsIncludes folder "01-precondition" with
        | false => rfl
        | true =>
          have := jsIncludes_mono (f := folder) (a := "precondition")
            (b := "01-precondition") ⟨"01-".toList, [], rfl⟩ h
          simp [this] at hP
      have h03c : jsIncludes folder "03-completion" = false := by
        cases h : jsIncludes folder "03-completion" with
        | false => rfl
        | true =>
          have := jsIncludes_mono (f := folder) (a := "completion")
            (b := "03-completion") ⟨"03-".toList, [], rfl⟩ h
          simp [this] at hC
      obtain ⟨hd1, hd2⟩ := Bool.or_eq_false_iff.mp hD
      simp only [Bool.or_eq_false_iff] at hP hC
      obtain ⟨⟨⟨⟨hp1, hp2⟩, hp3⟩, hp4⟩, hp5⟩ := hP
      obtain ⟨⟨hc1, hc2⟩, hc3⟩ := hC
      rw [hstage, if_neg hne]
      simp [stageOfFolder, hd1, hd2, h02d, hp1, hp2, hp3, hp4, hp5, h01p,
        hc1, hc2, hc3, h03c]

/-! ## Proximity selection helper lemmas -/

theorem processSet_of_some {id : String} {b : StageBuckets} {ref : PhotoLocation}
    (href : findReference b.damage = some ref) :
    processSet id b =
      ⟨id, b.damage, selectClosest ref b.precondition,
        selectClosest ref b.completion, some ref⟩ := by
  simp [processSet, href]

theorem processSet_of_none {id : String} {b : StageBuckets}
    (href : findReference b.damage = none) :
    processSet id b = ⟨id, b.damage, b.precondition, b.completion, none⟩ := by
  simp [processSet, href]

/-- The shape of one narrowed bucket: a distance-sorted location-bearing
prefix of length `min N 10`, followed by exactly the location-less
photos in their original order. -/
theorem selectClosest_spec (ref : PhotoLocation) (photos : List PhotoMetadata) :
    ∃ located,
      selectClosest ref photos =
        located ++ photos.filter (fun p => !p.location.isSome) ∧
      located.length = min (photos.filter (fun p => p.location.isSome)).length 10 ∧
      located.Pairwise (fun p q => photoDistance ref p ≤ photoDistance ref q) ∧
      ∀ p ∈ located, p ∈ photos ∧ p.location.isSome = true := by
  refine ⟨((photos.filter fun p => p.location.isSome).mergeSort (distLE ref)).take 10,
    ?_, ?_, ?_, ?_⟩
  · rfl
  · rw [List.length_take, List.length_mergeSort, Nat.min_comm]
  · have htrans : ∀ a b c : PhotoMetadata, distLE ref a b = true → distLE ref b c = true →
        distLE ref a c = true := by
      intro a b c hab hbc
      simp only [distLE, decide_eq_true_eq] at hab hbc ⊢
      exact le_trans hab hbc
    have htotal : ∀ a b : PhotoMetadata, (distLE ref a b || distLE ref b a) = true := by
      intro a b
      simp only [distLE, Bool.or_eq_true, decide_eq_true_eq]
      exact le_total _ _
    have hs := List.sorted_mergeSort htrans htotal
      (photos.filter fun p => p.location.isSome)
    exact (List.Pairwise.sublist (List.take_sublist _ _) hs).imp
      (fun h => by simpa [distLE, decide_eq_true_eq] using h)
  · intro p hp
    have h1 : p ∈ (photos.filter fun p => p.location.isSome).mergeSort (distLE ref) :=
      (List.take_sublist _ _).subset hp
    have h2 : p ∈ photos.filter fun p => p.location.isSome :=
      (List.mergeSort_perm _ _).mem_iff.mp h1
    exact ⟨(List.mem_filter.mp h2).1, (List.mem_filter.mp h2).2⟩

/-- C8. Damage photos always pass through the per-report selection step
unfiltered; when no damage photo carries a location (so no reference
location exists), the precondition and completion lists also pass
through unmodified; and every photo set in the output of
`processFolderStructure` is exactly the selection step applied to one
classified bucket. -/
theorem C8_damage_unfiltered :
    (∀ id b, (processSet id b).damagePhotos = b.damage) ∧
    (∀ id b, findReference b.damage = none →
      (processSet id b).preconditionPhotos = b.precondition ∧
      (processSet id b).completionPhotos = b.completion) ∧
    (∀ le files, ∀ ps ∈ processFolderStructure le files,
      ∃ kb, kb ∈ classifyFiles files ∧ ps = processSet kb.1 kb.2) := by
  refine ⟨?_, ?_, ?_⟩
  · intro id b
    cases h : findReference b.damage with
    | none => rw [processSet_of_none h]
    | some ref => rw [processSet_of_some h]
  · intro id b h
    rw [processSet_of_none h]
    exact ⟨rfl, rfl⟩
  · intro le files ps hps
    simp only [processFolderStructure] at hps
    have hmem := (List.mergeSort_perm _ _).mem_iff.mp hps
    obtain ⟨kb, hkb, heq⟩ := List.mem_map.mp hmem
    exact ⟨kb, hkb, heq.symm⟩

/-- Witness for C8: a report with no located damage photo passes its
precondition bucket through unchanged, and the single output set of a
one-file upload is the selection step applied to its classified
bucket. -/
theorem C8_damage_unfiltered_witness :
    findReference ((⟨[], [⟨"p.jpg", none⟩], []⟩ : StageBuckets)).damage = none ∧
    (processSet "R1" (⟨[], [⟨"p.jpg", none⟩], []⟩ : StageBuckets)).preconditionPhotos =
      [⟨"p.jpg", none⟩] ∧
    (processSet "R1" (⟨[⟨"x.jpg", none⟩], [], []⟩ : StageBuckets) ∈
      processFolderStructure (fun _ _ => true)
        [⟨"x.jpg", "image/jpeg", "Main/R1/02-Damage/x.jpg", none⟩] ∧
     ∃ kb, kb ∈ classifyFiles [⟨"x.jpg", "image/jpeg", "Main/R1/02-Damage/x.jpg", none⟩] ∧
       processSet "R1" (⟨[⟨"x.jpg", none⟩], [], []⟩ : StageBuckets) =
         processSet kb.1 kb.2) := by
  have hmem : processSet "R1" (⟨[⟨"x.jpg", none⟩], [], []⟩ : StageBuckets) ∈
      processFolderStructure (fun _ _ => true)
        [⟨"x.jpg", "image/jpeg", "Main/R1/02-Damage/x.jpg", none⟩] := by
    have hc : classifyFiles [⟨"x.jpg", "image/jpeg", "Main/R1/02-Damage/x.jpg", none⟩] =
        [("R1", (⟨[⟨"x.jpg", none⟩], [], []⟩ : StageBuckets))] := rfl
    have hmem2 : processSet "R1" (⟨[⟨"x.jpg", none⟩], [], []⟩ : StageBuckets) ∈
        (classifyFiles [⟨"x.jpg", "image/jpeg", "Main/R1/02-Damage/x.jpg", none⟩]).map
          (fun kb => processSet kb.1 kb.2) := by
      rw [hc]
      exact List.mem_singleton.mpr rfl
    exact (List.mergeSort_perm _ _).mem_iff.mpr hmem2
  refine ⟨rfl,
    (C8_damage_unfiltered.2.1 "R1" (⟨[], [⟨"p.jpg", none⟩], []⟩ : StageBuckets) rfl).1,
    hmem, C8_damage_unfiltered.2.2 (fun _ _ => true) _ _ hmem⟩

/-- C3. For a report whose damage bucket yields a reference location,
each selected precondition and completion list is a Haversine-distance
sorted location-bearing prefix of length `min N 10` drawn from the
bucket, followed by exactly the bucket's location-less photos — never
interleaved. -/
theorem C3_proximity_selection (id : String) (b : StageBuckets) (ref : PhotoLocation)
    (href : findReference b.damage = some ref) :
    (∃ located,
      (processSet id b).preconditionPhotos =
        located ++ b.precondition.filter (fun p => !p.location.isSome) ∧
      located.length = min (b.precondition.filter (fun p => p.location.isSome)).length 10 ∧
      located.Pairwise (fun p q => photoDistance ref p ≤ photoDistance ref q) ∧
      ∀ p ∈ located, p ∈ b.precondition ∧ p.location.isSome = true) ∧
    (∃ located,
      (processSet id b).completionPhotos =
        located ++ b.completion.filter (fun p => !p.location.isSome) ∧
      located.length = min (b.completion.filter (fun p => p.location.isSome)).length 10 ∧
      located.Pairwise (fun p q => photoDistance ref p ≤ photoDistance ref q) ∧
      ∀ p ∈ located, p ∈ b.completion ∧ p.location.isSome = true) := by
  rw [processSet_of_some href]
  exact ⟨selectClosest_spec ref b.precondition, selectClosest_spec ref b.completion⟩

/-- Witness for C3 on a report whose first damage photo carries the
reference location `(0, 0)`. -/
theorem C3_proximity_selection_witness :
    findReference [(⟨"d.jpg", some ⟨0, 0⟩⟩ : PhotoMetadata)] = some ⟨0, 0⟩ ∧
    ((∃ located,
      (processSet "R1" (⟨[⟨"d.jpg", some ⟨0, 0⟩⟩], [⟨"p.jpg", none⟩], []⟩ :
          StageBuckets)).preconditionPhotos =
        located ++ [(⟨"p.jpg", none⟩ : PhotoMetadata)].filter
          (fun p => !p.location.isSome) ∧
      located.length =
        min ([(⟨"p.jpg", none⟩ : PhotoMetadata)].filter
          (fun p => p.location.isSome)).length 10 ∧
      located.Pairwise
        (fun p q => photoDistance ⟨0, 0⟩ p ≤ photoDistance ⟨0, 0⟩ q) ∧
      ∀ p ∈ located, p ∈ [(⟨"p.jpg", none⟩ : PhotoMetadata)] ∧
        p.location.isSome = true) ∧
    (∃ located,
      (processSet "R1" (⟨[⟨"d.jpg", some ⟨0, 0⟩⟩], [⟨"p.jpg", none⟩], []⟩ :
          StageBuckets)).completionPhotos =
        located ++ ([] : List PhotoMetadata).filter (fun p => !p.location.isSome) ∧
      located.length =
        min (([] : List PhotoMetadata).filter (fun p => p.location.isSome)).length 10 ∧
      located.Pairwise
        (fun p q => photoDistance ⟨0, 0⟩ p ≤ photoDistance ⟨0, 0⟩ q) ∧
      ∀ p ∈ located, p ∈ ([] : List PhotoMetadata) ∧ p.location.isSome = true)) :=
  ⟨rfl, C3_proximity_selection "R1"
    ⟨[⟨"d.jpg", some ⟨0, 0⟩⟩], [⟨"p.jpg", none⟩], []⟩ ⟨0, 0⟩ rfl⟩

/-! ## Classification grouping lemmas -/

theorem classifyStep_eq (sets : List (String × StageBuckets)) (f : UploadFile) :
    classifyStep sets f =
      if isProcessedFile f then
        addPhoto sets (damageIdOfParts (splitSlash f.relativePath))
          (stageOfParts (splitSlash f.relativePath)) (extractPhotoMetadata f)
      else sets := by
  simp only [classifyStep, isProcessedFile]
  by_cases h1 : jsStartsWith f.mimeType "image/" = true
  · by_cases h2 : (splitSlash f.relativePath).length < 3
    · have h3 : ¬ (3 ≤ (splitSlash f.relativePath).length) := by omega
      simp [h1, h2, h3]
    · have h3 : 3 ≤ (splitSlash f.relativePath).length := by omega
      simp [h1, h2, h3]
  · have h1f : jsStartsWith f.mimeType "image/" = false := by
      cases hx : jsStartsWith f.mimeType "image/"
      · rfl
      · exact absurd hx h1
    simp [h1f]

theorem totalPhotos_cons (kb : String × StageBuckets) (rest : List (String × StageBuckets)) :
    totalPhotos (kb :: rest) =
      (kb.2.damage.length + kb.2.precondition.length + kb.2.completion.length) +
        totalPhotos rest := by
  simp [totalPhotos]

theorem totalPhotos_addPhoto (sets : List (String × StageBuckets)) (id : String)
    (st : Stage) (p : PhotoMetadata) :
    totalPhotos (addPhoto sets id st p) = totalPhotos sets + 1 := by
  induction sets with
  | nil => cases st <;> simp [addPhoto, totalPhotos, pushStage, emptyBuckets]
  | cons kb rest ih =>
    obtain ⟨k, b⟩ := kb
    by_cases h : k = id
    · rw [addPhoto, if_pos h, totalPhotos_cons, totalPhotos_cons]
      cases st <;> simp [pushStage] <;> omega
    · rw [addPhoto, if_neg h, totalPhotos_cons, totalPhotos_cons, ih]
      omega

theorem keys_addPhoto (sets : List (String × StageBuckets)) (id : String)
    (st : Stage) (p : PhotoMetadata) :
    (addPhoto sets id st p).map Prod.fst =
      if id ∈ sets.map Prod.fst then sets.map Prod.fst
      else sets.map Prod.fst ++ [id] := by
  induction sets with
  | nil => simp [addPhoto]
  | cons kb rest ih =>
    obtain ⟨k, b⟩ := kb
    by_cases h : k = id
    · simp [addPhoto, h]
    · rw [addPhoto, if_neg h]
      simp only [List.map_cons, List.mem_cons]
      rw [ih]
      by_cases h2 : id ∈ rest.map Prod.fst
      · simp [h2]
      · have : ¬ (id = k) := fun he => h he.symm
        simp [h2, this]

theorem nodup_keys_addPhoto {sets : List (String × StageBuckets)}
    (h : (sets.map Prod.fst).Nodup) (id : String) (st : Stage) (p : PhotoMetadata) :
    ((addPhoto sets id st p).map Prod.fst).Nodup := by
  rw [keys_addPhoto]
  by_cases h2 : id ∈ sets.map Prod.fst
  · simpa [h2]
  · simp [h2, List.nodup_append, h]

theorem alistGet_addPhoto_self (sets : List (String × StageBuckets)) (id : String)
    (st : Stage) (p : PhotoMetadata) :
    alistGet (addPhoto sets id st p) id =
      some (pushStage ((alistGet sets id).getD emptyBuckets) st p) := by
  induction sets with
  | nil => simp [addPhoto, alistGet]
  | cons kb rest ih =>
    obtain ⟨k, b⟩ := kb
    by_cases h : k = id
    · simp [addPhoto, alistGet, h]
    · simp [addPhoto, alistGet, h, ih]

theorem alistGet_addPhoto_ne (sets : List (String × StageBuckets)) {id id' : String}
    (st : Stage) (p : PhotoMetadata) (h : id ≠ id') :
    alistGet (addPhoto sets id st p) id' = alistGet sets id' := by
  induction sets with
  | nil => simp [addPhoto, alistGet, h]
  | cons kb rest ih =>
    obtain ⟨k, b⟩ := kb
    by_cases h2 : k = id
    · subst h2
      simp [addPhoto, alistGet, h]
    · simp [addPhoto, alistGet, h2, ih]

theorem mem_bucketOf_pushStage {b : StageBuckets} {st' : Stage} {q : PhotoMetadata}
    (st : Stage) (p : PhotoMetadata) (h : q ∈ bucketOf b st') :
    q ∈ bucketOf (pushStage b st p) st' := by
  cases st <;> cases st' <;> simp [pushStage, bucketOf] at h ⊢ <;> simp [h]

theorem mem_bucketOf_pushStage_self (b : StageBuckets) (st : Stage) (p : PhotoMetadata) :
    p ∈ bucketOf (pushStage b st p) st := by
  cases st <;> simp [pushStage, bucketOf]

theorem memBucket_addPhoto_self (sets : List (String × StageBuckets)) (id : String)
    (st : Stage) (p : PhotoMetadata) :
    MemBucket (addPhoto sets id st p) id st p :=
  ⟨_, alistGet_addPhoto_self sets id st p, mem_bucketOf_pushStage_self _ st p⟩

theorem memBucket_addPhoto_mono {sets : List (String × StageBuckets)} {id : String}
    {st : Stage} {q : PhotoMetadata} (id' : String) (st' : Stage) (p : PhotoMetadata)
    (h : MemBucket sets id st q) : MemBucket (addPhoto sets id' st' p) id st q := by
  obtain ⟨b, hb, hm⟩ := h
  by_cases he : id' = id
  · subst he
    refine ⟨_, alistGet_addPhoto_self sets id' st' p, ?_⟩
    have hgd : (alistGet sets id').getD emptyBuckets = b := by rw [hb]; rfl
    rw [hgd]
    exact mem_bucketOf_pushStage st' p hm
  · exact ⟨b, by rw [alistGet_addPhoto_ne sets st' p he]; exact hb, hm⟩

theorem totalPhotos_classify_foldl (files : List UploadFile) :
    ∀ acc, totalPhotos (List.foldl classifyStep acc files) =
      totalPhotos acc + (files.filter isProcessedFile).length := by
  induction files with
  | nil => intro acc; simp
  | cons f fs ih =>
    intro acc
    rw [List.foldl_cons, ih, classifyStep_eq]
    by_cases h : isProcessedFile f = true
    · rw [if_pos h, totalPhotos_addPhoto]
      simp [List.filter_cons, h]
      omega
    · rw [if_neg h]
      simp [List.filter_cons, h]

theorem nodup_classify_foldl (files : List UploadFile) :
    ∀ acc, (acc.map Prod.fst).Nodup →
      ((List.foldl classifyStep acc files).map Prod.fst).Nodup := by
  induction files with
  | nil => intro acc h; simpa
  | cons f fs ih =>
    intro acc h
    rw [List.foldl_cons]
    apply ih
    rw [classifyStep_eq]
    by_cases hp : isProcessedFile f = true
    · rw [if_pos hp]
      exact nodup_keys_addPhoto h _ _ _
    · rwa [if_neg hp]

theorem memBucket_classify_foldl_mono (files : List UploadFile) :
    ∀ acc id st q, MemBucket acc id st q →
      MemBucket (List.foldl classifyStep acc files) id st q := by
  induction files with
  | nil => intro acc id st q h; simpa
  | cons f fs ih =>
    intro acc id st q h
    rw [List.foldl_cons]
    apply ih
    rw [classifyStep_eq]
    by_cases hp : isProcessedFile f = true
    · rw [if_pos hp]
      exact memBucket_addPhoto_mono _ _ _ h
    · rwa [if_neg hp]

theorem memBucket_classify_foldl (files : List UploadFile) :
    ∀ acc, ∀ f ∈ files, isProcessedFile f = true →
      MemBucket (List.foldl classifyStep acc files)
        (damageIdOfParts (splitSlash f.relativePath))
        (stageOfParts (splitSlash f.relativePath)) (extractPhotoMetadata f) := by
  induction files with
  | nil => intro acc f hf; exact absurd hf (List.not_mem_nil f)
  | cons g fs ih =>
    intro acc f hf hproc
    rw [List.foldl_cons]
    rcases List.mem_cons.mp hf with rfl | hmem
    · apply memBucket_classify_foldl_mono
      rw [classifyStep_eq, if_pos hproc]
      exact memBucket_addPhoto_self _ _ _ _
    · exact ih (classifyStep acc g) f hmem hproc

/-- Counterexample to C1 as stated: the image file `B/x.jpg` has exactly
2 slash-delimited path segments and MIME type `image/jpeg`, yet
`processFolderStructure` produces no photo set at all for it — the file
is dropped by the `pathParts.length < 3` guard, contradicting the
claimed classification of every image with at least 2 segments. -/
theorem C1_counterexample :
    processFolderStructure (fun _ _ => true)
      [⟨"x.jpg", "image/jpeg", "B/x.jpg", none⟩] = [] := by
  have hc : classifyFiles [⟨"x.jpg", "image/jpeg", "B/x.jpg", none⟩] = [] := rfl
  simp [processFolderStructure, hc]

/-- C1 (amended: at least 3 path segments instead of 2, and the
classification phase of `processFolderStructure`).  Every image file
whose path has at least 3 segments lands in the stage bucket its path
determines, of the photo set keyed by its inferred report id; report ids
are pairwise distinct; the total photo count across all buckets equals
the number of such files, so none is dropped or duplicated by
classification; and the output sets of `processFolderStructure` are
keyed by exactly the classified report ids. -/
theorem C1_classification_total (files : List UploadFile) :
    ((classifyFiles files).map Prod.fst).Nodup ∧
    totalPhotos (classifyFiles files) = (files.filter isProcessedFile).length ∧
    (∀ f ∈ files, isProcessedFile f = true →
      MemBucket (classifyFiles files) (damageIdOfParts (splitSlash f.relativePath))
        (stageOfParts (splitSlash f.relativePath)) (extractPhotoMetadata f)) ∧
    (∀ le, ((processFolderStructure le files).map PhotoSet.damageId).Perm
      ((classifyFiles files).map Prod.fst)) := by
  refine ⟨?_, ?_, ?_, ?_⟩
  · exact nodup_classify_foldl files [] (by simp)
  · have := totalPhotos_classify_foldl files []
    simpa [classifyFiles, totalPhotos] using this
  · intro f hf hp
    exact memBucket_classify_foldl files [] f hf hp
  · intro le
    have h1 := List.mergeSort_perm
      ((classifyFiles files).map fun kb => processSet kb.1 kb.2)
      (fun a b => le a.damageId b.damageId)
    have h2 := h1.map PhotoSet.damageId
    rw [List.map_map] at h2
    have h3 : (PhotoSet.damageId ∘ fun kb : String × StageBuckets =>
        processSet kb.1 kb.2) = Prod.fst := by
      funext kb
      simp only [Function.comp]
      cases h : findReference kb.2.damage with
      | none => rw [processSet_of_none h]
      | some ref => rw [processSet_of_some h]
    rw [h3] at h2
    exact h2

/-- Witness for C1 (amended) on a single three-segment image upload. -/
theorem C1_classification_total_witness :
    ((⟨"x.jpg", "image/jpeg", "Main/R1/02-Damage/x.jpg", none⟩ : UploadFile) ∈
      [(⟨"x.jpg", "image/jpeg", "Main/R1/02-Damage/x.jpg", none⟩ : UploadFile)]) ∧
    isProcessedFile ⟨"x.jpg", "image/jpeg", "Main/R1/02-Damage/x.jpg", none⟩ = true ∧
    MemBucket (classifyFiles [⟨"x.jpg", "image/jpeg", "Main/R1/02-Damage/x.jpg", none⟩])
      (damageIdOfParts (splitSlash "Main/R1/02-Damage/x.jpg"))
      (stageOfParts (splitSlash "Main/R1/02-Damage/x.jpg"))
      (extractPhotoMetadata ⟨"x.jpg", "image/jpeg", "Main/R1/02-Damage/x.jpg", none⟩) :=
  ⟨List.mem_singleton.mpr rfl, by decide,
    (C1_classification_total
        [⟨"x.jpg", "image/jpeg", "Main/R1/02-Damage/x.jpg", none⟩]).2.2.1 _
      (List.mem_singleton.mpr rfl) (by decide)⟩

/-- Witness for C4 on the path `A/B/02-Damage/x.jpg` (scan index 2). -/
theorem C4_report_id_and_stage_witness :
    stageFolderScan (splitSlash "A/B/02-Damage/x.jpg") = some 2 ∧ 0 < 2 ∧
    damageIdOfParts (splitSlash "A/B/02-Damage/x.jpg") = "B" :=
  ⟨by decide, by decide,
    (C4_report_id_and_stage (splitSlash "A/B/02-Damage/x.jpg") 2
      (by decide) (by decide)).2.2.2.2.2.1⟩

/-! ## Details-parser lemmas and claims -/

theorem alistGet_insertDetail_self (acc : List (String × DamageDetails)) (id : String)
    (d : DamageDetails) : alistGet (insertDetail acc id d) id = some d := by
  induction acc with
  | nil => simp [insertDetail, alistGet]
  | cons kv rest ih =>
    obtain ⟨k, v⟩ := kv
    by_cases h : k = id
    · simp [insertDetail, alistGet, h]
    · simp [insertDetail, alistGet, h, ih]

theorem alistGet_insertDetail_ne (acc : List (String × DamageDetails)) {id id' : String}
    (d : DamageDetails) (h : id ≠ id') :
    alistGet (insertDetail acc id d) id' = alistGet acc id' := by
  induction acc with
  | nil => simp [insertDetail, alistGet, h]
  | cons kv rest ih =>
    obtain ⟨k, v⟩ := kv
    by_cases h2 : k = id
    · subst h2
      simp [insertDetail, alistGet, h]
    · simp [insertDetail, alistGet, h2, ih]

theorem alistGet_processRows_foldl (pf : String → Option ℚ) (m : ResolvedMapping)
    (headers : List String) (post : List Row) :
    ∀ (acc : List (String × DamageDetails)) (id : String),
      (∀ r2 ∈ post, getCellValue r2 m.damageId ≠ some id) →
      alistGet (List.foldl (processRowsStep pf m headers) acc post) id = alistGet acc id := by
  induction post with
  | nil => intro acc id _; rfl
  | cons r2 rs ih =>
    intro acc id h
    rw [List.foldl_cons, ih _ id (fun x hx => h x (List.mem_cons_of_mem _ hx))]
    cases hg : getCellValue r2 m.damageId with
    | none => simp [processRowsStep, hg]
    | some i =>
      have hne : i ≠ id := by
        intro he
        exact h r2 (List.mem_cons_self r2 rs) (by rw [hg, he])
      simp [processRowsStep, hg, alistGet_insertDetail_ne _ _ hne]

/-- C5. When no report-id column resolves — the header inference finds
no candidate and the explicit mapping supplies no damageId override —
the parser rejects the whole sheet: it returns an empty details map and
the non-empty error message naming the missing required column.  And a
row whose report-id cell is missing or trims to empty contributes
nothing: the details map equals the one computed without that row. -/
theorem C5_missing_id_column_and_row_skip :
    (∀ (pf : String → Option ℚ) (first : Row) (rest : List Row)
        (mapping : Option ColumnMapping),
      findHeader (first.map Prod.fst)
        ["damageid", "damage_id", "reportid", "report_id", "folderpath", "folder"] = none →
      mappingDamageIdOverride mapping = none →
      parseDamageDetailsRows pf (first :: rest) mapping =
        ⟨[], some "Missing required column: damageId."⟩) ∧
    (∀ (pf : String → Option ℚ) (m : ResolvedMapping) (headers : List String)
        (pre post : List Row) (r : Row),
      getCellValue r m.damageId = none →
      processRows pf m headers (pre ++ r :: post) = processRows pf m headers (pre ++ post)) := by
  constructor
  · intro pf first rest mapping h1 h2
    have hmerged : (mergeMapping (suggestColumnMapping (first.map Prod.fst))
        mapping).damageId = none := by
      cases mapping with
      | none => simpa [mergeMapping, suggestColumnMapping] using h1
      | some mm =>
        cases hmm : mm.damageId with
        | none => simpa [mergeMapping, hmm, suggestColumnMapping] using h1
        | some v =>
          have hv : v = none := by simpa [mappingDamageIdOverride, hmm] using h2
          simp [mergeMapping, hmm, hv]
    simp [parseDamageDetailsRows, hmerged, jsTruthy]
  · intro pf m headers pre post r hr
    simp only [processRows, List.foldl_append, List.foldl_cons, processRowsStep, hr]

/-- Witness for C5: a single-column sheet with no recognizable report-id
header is rejected with the named error, and a row with an empty
report-id cell drops out of the fold. -/
theorem C5_missing_id_column_and_row_skip_witness :
    (findHeader ["col"]
        ["damageid", "damage_id", "reportid", "report_id", "folderpath", "folder"] = none ∧
     mappingDamageIdOverride none = none ∧
     parseDamageDetailsRows (fun _ => none) [[("col", "v")]] none =
       ⟨[], some "Missing required column: damageId."⟩) ∧
    (getCellValue [("id", "")] (some "id") = none ∧
     processRows (fun _ => none)
        ⟨some "id", none, none, none, none, none, none, none⟩ ["id"]
        ([] ++ [("id", "")] :: [[("id", "R2")]]) =
     processRows (fun _ => none)
        ⟨some "id", none, none, none, none, none, none, none⟩ ["id"]
        ([] ++ [[("id", "R2")]])) := by
  constructor
  · exact ⟨by decide, rfl,
      C5_missing_id_column_and_row_skip.1 (fun _ => none) [("col", "v")] [] none
        (by decide) rfl⟩
  · exact ⟨by decide,
      C5_missing_id_column_and_row_skip.2 (fun _ => none)
        ⟨some "id", none, none, none, none, none, none, none⟩ ["id"] [] [[("id", "R2")]]
        [("id", "")] (by decide)⟩

/-- C10. When several rows share the same non-empty report id, the
details map holds, for that id, the record parsed from the last such row
in sheet order; earlier rows' values are overwritten. -/
theorem C10_last_row_wins (pf : String → Option ℚ) (m : ResolvedMapping)
    (headers : List String) (pre post : List Row) (r : Row) (id : String)
    (hid : getCellValue r m.damageId = some id)
    (hpost : ∀ r2 ∈ post, getCellValue r2 m.damageId ≠ some id) :
    alistGet (processRows pf m headers (pre ++ r :: post)) id =
      some (parseRow pf m headers r) := by
  unfold processRows
  rw [List.foldl_append, List.foldl_cons]
  have hstep : processRowsStep pf m headers
      (List.foldl (processRowsStep pf m headers) [] pre) r =
      insertDetail (List.foldl (processRowsStep pf m headers) [] pre) id
        (parseRow pf m headers r) := by
    simp [processRowsStep, hid]
  rw [hstep, alistGet_processRows_foldl pf m headers post _ id hpost,
    alistGet_insertDetail_self]

/-- Witness for C10: two rows with report id `R1`; the stored record is
the second row's. -/
theorem C10_last_row_wins_witness :
    getCellValue [("id", "R1"), ("damageType", "New")] (some "id") = some "R1" ∧
    (∀ r2 ∈ ([] : List Row),
      getCellValue r2 (some "id") ≠ some "R1") ∧
    alistGet (processRows (fun _ => none)
        ⟨some "id", some "damageType", none, none, none, none, none, none⟩
        ["id", "damageType"]
        ([[("id", "R1"), ("damageType", "Old")]] ++
          [("id", "R1"), ("damageType", "New")] :: [])) "R1" =
      some (parseRow (fun _ => none)
        ⟨some "id", some "damageType", none, none, none, none, none, none⟩
        ["id", "damageType"] [("id", "R1"), ("damageType", "New")]) :=
  ⟨by decide, by simp,
    C10_last_row_wins (fun _ => none)
      ⟨some "id", some "damageType", none, none, none, none, none, none⟩
      ["id", "damageType"] [[("id", "R1"), ("damageType", "Old")]] []
      [("id", "R1"), ("damageType", "New")] "R1" (by decide) (by simp)⟩

/-! ## Assessment-store lemmas and claims -/

theorem alistGet_sqlInsertOnConflict_self (t : AssessmentTable) (id dmg : String)
    (aj mj : Option String) (ca ua : String) :
    alistGet (sqlInsertOnConflict t id dmg aj mj ca ua) id =
      some ⟨dmg, aj, mj,
        (match alistGet t id with | some row => row.createdAt | none => ca), ua⟩ := by
  induction t with
  | nil => simp [sqlInsertOnConflict, alistGet]
  | cons kv rest ih =>
    obtain ⟨k, row⟩ := kv
    by_cases h : k = id
    · simp [sqlInsertOnConflict, alistGet, h]
    · simp [sqlInsertOnConflict, alistGet, h, ih]

theorem keys_sqlInsertOnConflict (t : AssessmentTable) (id dmg : String)
    (aj mj : Option String) (ca ua : String) :
    (sqlInsertOnConflict t id dmg aj mj ca ua).map Prod.fst =
      if id ∈ t.map Prod.fst then t.map Prod.fst else t.map Prod.fst ++ [id] := by
  induction t with
  | nil => simp [sqlInsertOnConflict]
  | cons kv rest ih =>
    obtain ⟨k, row⟩ := kv
    by_cases h : k = id
    · simp [sqlInsertOnConflict, h]
    · rw [sqlInsertOnConflict, if_neg h]
      simp only [List.map_cons, List.mem_cons]
      rw [ih]
      by_cases h2 : id ∈ rest.map Prod.fst
      · simp [h2]
      · have : ¬ (id = k) := fun he => h he.symm
        simp [h2, this]

theorem mem_of_alistGet_eq_some {β : Type _} {t : List (String × β)} {k : String} {v : β}
    (h : alistGet t k = some v) : (k, v) ∈ t := by
  induction t with
  | nil => simp [alistGet] at h
  | cons kv rest ih =>
    obtain ⟨k1, v1⟩ := kv
    by_cases h2 : k1 = k
    · subst h2
      simp only [alistGet, if_true, eq_self_iff_true, Option.some_inj] at h
      cases h
      exact List.mem_cons_self _ _
    · simp only [alistGet, if_neg h2] at h
      exact List.mem_cons_of_mem _ (ih h)

/-- Counterexample to C2 as stated: the input carries the explicit id
`""` (present but empty), yet the upserted record's id resolves to the
damageId `R1`, because `record.id || record.damageId` treats the empty
string as absent. -/
theorem C2_counterexample :
    (upsertAssessment [] ⟨some "", "R1", none, none⟩ "T1").2.id = "R1" ∧
    ¬ ((upsertAssessment [] ⟨some "", "R1", none, none⟩ "T1").2.id = "") := by
  constructor
  · rfl
  · intro h
    exact absurd h (by decide)

/-- C2 (amended: the record id is the explicit input id when supplied
*non-empty*, else the damageId).  On a fresh id the upsert creates a
record with `createdAt = updatedAt = now`; on an existing id it
preserves the stored `createdAt` and overwrites damageId, approval and
metrics with exactly the input's values (absent stays absent) while
setting `updatedAt = now`; afterwards ids are still unique.  The same
facts hold for the record returned to the caller (using the well-formed
invariant that stored timestamps are non-empty ISO strings). -/
theorem C2_upsert (t : AssessmentTable) (r : AssessmentUpsert) (now : String)
    (hwf : ∀ kv ∈ t, (kv.2 : StoredRow).createdAt ≠ "")
    (hkeys : (t.map Prod.fst).Nodup) :
    (∀ s, r.id = some s → s ≠ "" → resolveUpsertId r = s) ∧
    ((r.id = none ∨ r.id = some "") → resolveUpsertId r = r.damageId) ∧
    (alistGet t (resolveUpsertId r) = none →
      alistGet (upsertAssessment t r now).1 (resolveUpsertId r) =
        some ⟨r.damageId, r.approval, r.metrics, now, now⟩ ∧
      (upsertAssessment t r now).2 =
        ⟨resolveUpsertId r, r.damageId, r.approval, r.metrics, now, now⟩) ∧
    (∀ row0, alistGet t (resolveUpsertId r) = some row0 →
      alistGet (upsertAssessment t r now).1 (resolveUpsertId r) =
        some ⟨r.damageId, r.approval, r.metrics, row0.createdAt, now⟩ ∧
      (upsertAssessment t r now).2 =
        ⟨resolveUpsertId r, r.damageId, r.approval, r.metrics, row0.createdAt, now⟩) ∧
    ((upsertAssessment t r now).1.map Prod.fst).Nodup := by
  refine ⟨?_, ?_, ?_, ?_, ?_⟩
  · intro s hs hne
    simp [resolveUpsertId, hs, hne]
  · rintro (h | h) <;> simp [resolveUpsertId, h]
  · intro hnone
    have hsel : selectCreatedAt t (resolveUpsertId r) = none := by
      simp [selectCreatedAt, hnone]
    constructor
    · simp only [upsertAssessment, upsertWritePhase, upsertReadPhase, hsel]
      rw [alistGet_sqlInsertOnConflict_self, hnone]
    · simp [upsertAssessment, upsertWritePhase, upsertReadPhase, hsel]
  · intro row0 hsome
    have hca : row0.createdAt ≠ "" :=
      hwf (resolveUpsertId r, row0) (mem_of_alistGet_eq_some hsome)
    have hsel : selectCreatedAt t (resolveUpsertId r) = some row0.createdAt := by
      simp [selectCreatedAt, hsome]
    constructor
    · simp only [upsertAssessment, upsertWritePhase, upsertReadPhase, hsel]
      rw [alistGet_sqlInsertOnConflict_self, hsome]
    · simp [upsertAssessment, upsertWritePhase, upsertReadPhase, hsel, hca]
  · simp only [upsertAssessment, upsertWritePhase, upsertReadPhase]
    rw [keys_sqlInsertOnConflict]
    by_cases h2 : resolveUpsertId r ∈ t.map Prod.fst
    · simpa [h2]
    · simp [h2, List.nodup_append, hkeys]

/-- Witness for C2 (amended): first upsert of `R1` into an empty table
creates the record with equal timestamps and echoes the input fields. -/
theorem C2_upsert_witness :
    ((∀ kv ∈ ([] : AssessmentTable), (kv.2 : StoredRow).createdAt ≠ "") ∧
     (([] : AssessmentTable).map Prod.fst).Nodup ∧
     alistGet ([] : AssessmentTable)
       (resolveUpsertId ⟨none, "R1", some "A", none⟩) = none) ∧
    alistGet (upsertAssessment [] ⟨none, "R1", some "A", none⟩ "T1").1
        (resolveUpsertId ⟨none, "R1", some "A", none⟩) =
      some ⟨"R1", some "A", none, "T1", "T1"⟩ ∧
    (upsertAssessment [] ⟨none, "R1", some "A", none⟩ "T1").2 =
      ⟨resolveUpsertId ⟨none, "R1", some "A", none⟩, "R1", some "A", none, "T1", "T1"⟩ := by
  refine ⟨⟨by simp, by simp, rfl⟩, ?_, ?_⟩
  · exact ((C2_upsert [] ⟨none, "R1", some "A", none⟩ "T1" (by simp) (by simp)).2.2.1 rfl).1
  · exact ((C2_upsert [] ⟨none, "R1", some "A", none⟩ "T1" (by simp) (by simp)).2.2.1 rfl).2

theorem double_write_lookup (init : AssessmentTable) (id : String)
    (d1 : String) (a1 m1 : Option String) (ca1 u1 : String)
    (d2 : String) (a2 m2 : Option String) (ca2 u2 : String) :
    alistGet (sqlInsertOnConflict (sqlInsertOnConflict init id d1 a1 m1 ca1 u1)
        id d2 a2 m2 ca2 u2) id =
      some ⟨d2, a2, m2,
        (match alistGet init id with | some row0 => row0.createdAt | none => ca1), u2⟩ := by
  rw [alistGet_sqlInsertOnConflict_self, alistGet_sqlInsertOnConflict_self]

/-- Counterexample to C6 as stated: both backends do run a separate
`SELECT created_at` (read phase) before the single conditional
INSERT-ON-CONFLICT statement (write phase) — `upsertAssessment` is by
definition the write phase applied to the read phase's result.  Under
the interleaving read1, read2, write2, write1 on an empty table, caller
1's returned record reports `createdAt = "T1"` while the stored record's
`createdAt` is `"T2"` — observably impossible for an upsert implemented
as one atomic statement with no separate read. -/
theorem C6_counterexample :
    ((runSchedule ⟨none, "R1", none, none⟩ ⟨none, "R1", some "A2", none⟩ "T1" "T2" []
        [.read1, .read2, .write2, .write1]).ret1.map AssessmentRecord.createdAt) =
      some "T1" ∧
    selectCreatedAt (runSchedule ⟨none, "R1", none, none⟩ ⟨none, "R1", some "A2", none⟩
        "T1" "T2" [] [.read1, .read2, .write2, .write1]).table "R1" = some "T2" ∧
    ("T1" : String) ≠ "T2" ∧
    upsertAssessment ([] : AssessmentTable) ⟨none, "R1", none, none⟩ "T1" =
      upsertWritePhase [] ⟨none, "R1", none, none⟩
        (upsertReadPhase [] ⟨none, "R1", none, none⟩) "T1" := by
  refine ⟨by decide, by decide, by decide, rfl⟩

/-- C6 (amended: each backend's upsert is a separate `SELECT created_at`
followed by one atomic conditional INSERT-ON-CONFLICT whose conflict
branch never touches `created_at`).  Consequently, at the storage layer,
under every interleaving of two concurrent upserts for the same id both
writes fully apply: the stored record carries the later-committing
writer's damageId, approval, metrics and `updatedAt`, while `createdAt`
is the pre-existing record's, or on a fresh id the first-committing
writer's time — neither upsert loses it.  (Only the record *returned* to
a caller can report a stale `createdAt`, per the counterexample.) -/
theorem C6_interleaved_upserts (r1 r2 : AssessmentUpsert) (t1 t2 : String)
    (init : AssessmentTable) (sched : List UpsertEv)
    (hs : sched ∈ validSchedules)
    (hid : resolveUpsertId r1 = resolveUpsertId r2) :
    alistGet (runSchedule r1 r2 t1 t2 init sched).table (resolveUpsertId r1) =
      some ⟨(lastWriter r1 r2 t1 t2 sched).1.damageId,
            (lastWriter r1 r2 t1 t2 sched).1.approval,
            (lastWriter r1 r2 t1 t2 sched).1.metrics,
            (match alistGet init (resolveUpsertId r1) with
             | some row0 => row0.createdAt
             | none => firstWriteTime t1 t2 sched),
            (lastWriter r1 r2 t1 t2 sched).2⟩ := by
  simp only [validSchedules, List.mem_cons, List.not_mem_nil, or_false] at hs
  rcases hs with rfl | rfl | rfl | rfl | rfl | rfl
  · rw [show lastWriter r1 r2 t1 t2 [.read1, .write1, .read2, .write2] = (r2, t2) from rfl,
        show firstWriteTime t1 t2 [.read1, .write1, .read2, .write2] = t1 from rfl]
    simp only [runSchedule, List.foldl_cons, List.foldl_nil, concStep,
      upsertWritePhase, upsertReadPhase, Option.getD_some, ← hid]
    rw [double_write_lookup]
    rcases h : alistGet init (resolveUpsertId r1) with _ | row0 <;>
      simp [selectCreatedAt, h]
  · rw [show lastWriter r1 r2 t1 t2 [.read2, .write2, .read1, .write1] = (r1, t1) from rfl,
        show firstWriteTime t1 t2 [.read2, .write2, .read1, .write1] = t2 from rfl]
    simp only [runSchedule, List.foldl_cons, List.foldl_nil, concStep,
      upsertWritePhase, upsertReadPhase, Option.getD_some, ← hid]
    rw [double_write_lookup]
    rcases h : alistGet init (resolveUpsertId r1) with _ | row0 <;>
      simp [selectCreatedAt, h]
  · rw [show lastWriter r1 r2 t1 t2 [.read1, .read2, .write1, .write2] = (r2, t2) from rfl,
        show firstWriteTime t1 t2 [.read1, .read2, .write1, .write2] = t1 from rfl]
    simp only [runSchedule, List.foldl_cons, List.foldl_nil, concStep,
      upsertWritePhase, upsertReadPhase, Option.getD_some, ← hid]
    rw [double_write_lookup]
    rcases h : alistGet init (resolveUpsertId r1) with _ | row0 <;>
      simp [selectCreatedAt, h]
  · rw [show lastWriter r1 r2 t1 t2 [.read1, .read2, .write2, .write1] = (r1, t1) from rfl,
        show firstWriteTime t1 t2 [.read1, .read2, .write2, .write1] = t2 from rfl]
    simp only [runSchedule, List.foldl_cons, List.foldl_nil, concStep,
      upsertWritePhase, upsertReadPhase, Option.getD_some, ← hid]
    rw [double_write_lookup]
    rcases h : alistGet init (resolveUpsertId r1) with _ | row0 <;>
      simp [selectCreatedAt, h]
  · rw [show lastWriter r1 r2 t1 t2 [.read2, .read1, .write1, .write2] = (r2, t2) from rfl,
        show firstWriteTime t1 t2 [.read2, .read1, .write1, .write2] = t1 from rfl]
    simp only [runSchedule, List.foldl_cons, List.foldl_nil, concStep,
      upsertWritePhase, upsertReadPhase, Option.getD_some, ← hid]
    rw [double_write_lookup]
    rcases h : alistGet init (resolveUpsertId r1) with _ | row0 <;>
      simp [selectCreatedAt, h]
  · rw [show lastWriter r1 r2 t1 t2 [.read2, .read1, .write2, .write1] = (r1, t1) from rfl,
        show firstWriteTime t1 t2 [.read2, .read1, .write2, .write1] = t2 from rfl]
    simp only [runSchedule, List.foldl_cons, List.foldl_nil, concStep,
      upsertWritePhase, upsertReadPhase, Option.getD_some, ← hid]
    rw [double_write_lookup]
    rcases h : alistGet init (resolveUpsertId r1) with _ | row0 <;>
      simp [selectCreatedAt, h]

/-- Witness for C6 (amended) on the write2-then-write1 interleaving over
an empty table: write1 commits last, and the stored `createdAt` is the
first writer's time `T2`. -/
theorem C6_interleaved_upserts_witness :
    ([UpsertEv.read1, .read2, .write2, .write1] ∈ validSchedules ∧
     resolveUpsertId ⟨none, "R1", none, none⟩ =
       resolveUpsertId ⟨none, "R1", some "A2", none⟩) ∧
    alistGet (runSchedule ⟨none, "R1", none, none⟩ ⟨none, "R1", some "A2", none⟩
        "T1" "T2" [] [.read1, .read2, .write2, .write1]).table
        (resolveUpsertId ⟨none, "R1", none, none⟩) =
      some ⟨(lastWriter ⟨none, "R1", none, none⟩ ⟨none, "R1", some "A2", none⟩ "T1" "T2"
              [.read1, .read2, .write2, .write1]).1.damageId,
            (lastWriter ⟨none, "R1", none, none⟩ ⟨none, "R1", some "A2", none⟩ "T1" "T2"
              [.read1, .read2, .write2, .write1]).1.approval,
            (lastWriter ⟨none, "R1", none, none⟩ ⟨none, "R1", some "A2", none⟩ "T1" "T2"
              [.read1, .read2, .write2, .write1]).1.metrics,
            (match alistGet ([] : AssessmentTable)
                (resolveUpsertId ⟨none, "R1", none, none⟩) with
             | some row0 => row0.createdAt
             | none => firstWriteTime "T1" "T2" [.read1, .read2, .write2, .write1]),
            (lastWriter ⟨none, "R1", none, none⟩ ⟨none, "R1", some "A2", none⟩ "T1" "T2"
              [.read1, .read2, .write2, .write1]).2⟩ :=
  ⟨⟨by decide, rfl⟩,
    C6_interleaved_upserts ⟨none, "R1", none, none⟩ ⟨none, "R1", some "A2", none⟩
      "T1" "T2" [] [.read1, .read2, .write2, .write1] (by decide) rfl⟩

/-! ## Request-handler claims -/

/-- Counterexample to C7 as stated: the body carries the field
`damageId: ""` (so it does not lack a damageId), yet the handler answers
400 — `!payload?.damageId` treats the empty string as missing. -/
theorem C7_counterexample :
    handleRequest (fun s => s) "U" "T1" []
      ⟨"POST", "/api/assessments", some ⟨none, some "", none, none⟩, none⟩ =
      (.jsonError 400 "damageId is required", []) ∧
    (some "" : Option String) ≠ none :=
  ⟨rfl, by decide⟩

/-- C7 (amended: the 400 criterion is lacking a *non-empty* damageId).
POST `/api/assessments` answers 400 with a non-empty `error` message iff
the JSON body is null or its damageId field is absent or empty;
otherwise it answers 201 with the upserted record, whose damageId equals
the input's and whose approval and metrics echo the input exactly
(absent stays absent). -/
theorem C7_post_assessments (decode : String → String) (uuid now : String)
    (st : AssessmentTable) (body : Option IncomingBody) (ff : Option String) :
    ((∃ msg, handleRequest decode uuid now st ⟨"POST", "/api/assessments", body, ff⟩ =
        (.jsonError 400 msg, st) ∧ msg ≠ "") ↔
      (body = none ∨ ∃ b, body = some b ∧ (b.damageId = none ∨ b.damageId = some ""))) ∧
    (∀ b d, body = some b → b.damageId = some d → d ≠ "" →
      ∃ rec t2, handleRequest decode uuid now st ⟨"POST", "/api/assessments", body, ff⟩ =
        (.jsonRecord 201 rec, t2) ∧ rec.damageId = d ∧ rec.approval = b.approval ∧
        rec.metrics = b.metrics) := by
  have hred : ∀ b : IncomingBody,
      handleRequest decode uuid now st ⟨"POST", "/api/assessments", some b, ff⟩ =
        (if jsTruthy b.damageId then
          (.jsonRecord 201 (upsertAssessment st (bodyToUpsert b) now).2,
            (upsertAssessment st (bodyToUpsert b) now).1)
        else (.jsonError 400 "damageId is required", st)) := fun b => rfl
  have hrednone :
      handleRequest decode uuid now st ⟨"POST", "/api/assessments", none, ff⟩ =
        (.jsonError 400 "damageId is required", st) := rfl
  constructor
  · constructor
    · rintro ⟨msg, hmsg, hne⟩
      cases body with
      | none => exact Or.inl rfl
      | some b =>
        refine Or.inr ⟨b, rfl, ?_⟩
        by_cases hin : jsTruthy b.damageId = true
        · rw [hred b, if_pos hin] at hmsg
          simp at hmsg
        · cases hd : b.damageId with
          | none => exact Or.inl rfl
          | some sdm =>
            by_cases hse : sdm = ""
            · subst hse
              exact Or.inr rfl
            · exact absurd (by simp [jsTruthy, hd, hse]) hin
    · rintro (rfl | ⟨b, rfl, hdm⟩)
      · exact ⟨"damageId is required", hrednone, by decide⟩
      · have hfalse : jsTruthy b.damageId = false := by
          rcases hdm with h | h <;> simp [jsTruthy, h]
        refine ⟨"damageId is required", ?_, by decide⟩
        rw [hred b, if_neg (by simp [hfalse])]
  · rintro b d rfl hd hne
    have htrue : jsTruthy b.damageId = true := by simp [jsTruthy, hd, hne]
    refine ⟨(upsertAssessment st (bodyToUpsert b) now).2,
      (upsertAssessment st (bodyToUpsert b) now).1, ?_, ?_, rfl, rfl⟩
    · rw [hred b, if_pos htrue]
    · simp [upsertAssessment, upsertWritePhase, bodyToUpsert, hd]

/-- Witness for C7 (amended): the body `damageId: "R1"` yields 201 and a
record echoing the input. -/
theorem C7_post_assessments_witness :
    ((⟨none, some "R1", none, none⟩ : IncomingBody).damageId = some "R1" ∧
     ("R1" : String) ≠ "") ∧
    (∃ rec t2, handleRequest (fun s => s) "U" "T1" []
        ⟨"POST", "/api/assessments", some ⟨none, some "R1", none, none⟩, none⟩ =
        (.jsonRecord 201 rec, t2) ∧ rec.damageId = "R1" ∧ rec.approval = none ∧
        rec.metrics = none) :=
  ⟨⟨rfl, by decide⟩,
    (C7_post_assessments (fun s => s) "U" "T1" []
        (some ⟨none, some "R1", none, none⟩) none).2
      ⟨none, some "R1", none, none⟩ "R1" rfl rfl (by decide)⟩

end DAT
